import Mathlib

/-!
Verification of the AWS billing-notification pipeline (`src/main.rs`).

The Rust program is a Lambda handler that queries CloudWatch for the
account's estimated charges (total and per service), resolves a Slack
webhook URL from SSM, and posts a formatted message.  We embed the
program shallowly: the external collaborators (CloudWatch, SSM, the
environment, the Slack transport, and the clock) become oracle fields of
a `World`; every function of the program becomes a Lean function from a
`World` to the list of external calls it issues (its trace) together
with its result.  A Rust `panic!` (a `.unwrap()` on `None`) is embedded
as the result `none`; a normal return is `some` of an `Except` value.
`f64` values are embedded as rationals: the program performs no
arithmetic on them, so every value flows through unchanged, and we
represent each floating-point constant by its shortest round-trip
decimal expansion read as an exact rational.
-/

namespace AwsBilling

/-- A CloudWatch dimension (`rusoto_cloudwatch::Dimension`): a name/value pair. -/
structure Dimension where
  name : String
  value : String
deriving DecidableEq

/-- A CloudWatch dimension filter (`rusoto_cloudwatch::DimensionFilter`):
the value is optional; an absent value acts as a wildcard. -/
structure DimensionFilter where
  name : String
  value : Option String
deriving DecidableEq

/-- The request of `get_metric_statistics` (`GetMetricStatisticsInput`).
The source field `namespace` is a Lean keyword, embedded here as
`nameSpace`; the RFC3339 start/end time strings are embedded as integer
Unix timestamps in seconds (the source formats timestamps at seconds
precision, an injective, order-preserving encoding).  The fields
`extended_statistics` and `unit` are always `None` in the source and are
omitted. -/
structure GetMetricStatisticsInput where
  dimensions : Option (List Dimension)
  metricName : String
  nameSpace : String
  statistics : Option (List String)
  startTime : ℤ
  endTime : ℤ
  period : ℤ
deriving DecidableEq

/-- A returned datapoint; only the `maximum` statistic is read by the source. -/
structure Datapoint where
  maximum : Option ℚ
deriving DecidableEq

/-- The response of `get_metric_statistics`: an optional list of datapoints. -/
structure GetMetricStatisticsOutput where
  datapoints : Option (List Datapoint)
deriving DecidableEq

/-- The request of `list_metrics` (`ListMetricsInput`). -/
structure ListMetricsInput where
  nameSpace : Option String
  dimensions : Option (List DimensionFilter)
  metricName : Option String
  nextToken : Option String
deriving DecidableEq

/-- A metric in a `list_metrics` response; only its dimensions are read. -/
structure Metric where
  dimensions : Option (List Dimension)
deriving DecidableEq

/-- The response of `list_metrics`. -/
structure ListMetricsOutput where
  metrics : Option (List Metric)
deriving DecidableEq

/-- The request of SSM `get_parameter` (`rusoto_ssm::GetParameterRequest`). -/
structure GetParameterRequest where
  name : String
  withDecryption : Option Bool
deriving DecidableEq

/-- An SSM parameter; only its (optional) value is read by the source. -/
structure Parameter where
  value : Option String
deriving DecidableEq

/-- The response of SSM `get_parameter`: an optional parameter. -/
structure GetParameterResult where
  parameter : Option Parameter
deriving DecidableEq

/-- One per-service cost entry (source struct `ServiceBilling`). -/
structure ServiceBilling where
  name : String
  cost : ℚ
deriving DecidableEq

/-- The aggregate billing value (source struct `Billing`). -/
structure Billing where
  total : ℚ
  services : List ServiceBilling
deriving DecidableEq

/-- A field of a Slack attachment (`slack_hook::Field`): title, value, short flag. -/
structure AttachmentField where
  title : String
  value : String
  short : Option Bool
deriving DecidableEq

/-- A Slack attachment as built by the source: its text and its fields. -/
structure Attachment where
  text : String
  fields : List AttachmentField
deriving DecidableEq

/-- The Slack payload as built by the source: username, icon emoji, text,
and attachments. -/
structure Payload where
  username : String
  iconEmoji : String
  text : String
  attachments : List Attachment
deriving DecidableEq

/-- The handler's output type (source struct `CustomOutput`, an empty struct). -/
structure CustomOutput where
deriving DecidableEq

deriving instance DecidableEq for Except

/-- Digits of the decimal expansion of the fraction `r / d` (with `0 ≤ r < d`),
most significant first, stopping when the remainder reaches `0`; `fuel`
bounds the number of digits produced. -/
def fracDigitsAux : Nat → Nat → Nat → List Nat
  | 0, _, _ => []
  | _ + 1, 0, _ => []
  | fuel + 1, r, d => (r * 10) / d :: fracDigitsAux fuel ((r * 10) % d) d

/-- Model of Rust's `Display` for `f64` (the `{}` of `format!`), under the
convention that each `f64` value is represented by its shortest
round-trip decimal expansion read as an exact rational.  On such
representatives Rust prints the minimal decimal expansion: no decimal
point for integral values (`5.0` prints as `5`) and no trailing zeros
otherwise (`12.34` prints as `12.34`). -/
def fmtF64 (q : ℚ) : String :=
  let sgn := if q < 0 then "-" else ""
  let n := q.num.natAbs
  let d := q.den
  let fd := fracDigitsAux 40 (n % d) d
  if fd.isEmpty then sgn ++ toString (n / d)
  else sgn ++ toString (n / d) ++ "." ++ String.join (fd.map toString)

/-- The value of `Duration::days(1).num_seconds()`: the query period, one day in seconds. -/
def daySeconds : ℤ := 86400

/-- The region the CloudWatch client is constructed with in `my_handler`
(line 161): `CloudWatchClient::new(Region::UsEast1)`, a fixed constant. -/
def cloudWatchRegion : String := "us-east-1"

/-- The request built by `CloudWatchFacade::get_total_cost` (lines 44-60):
metric `EstimatedCharges` in namespace `AWS/Billing`, statistic `Maximum`,
dimension `Currency=USD`, window from `now - 1 day` to `now`, period one
day.  `now` is the value `Utc::now()` returned at this call. -/
def totalCostInput (now : ℤ) : GetMetricStatisticsInput :=
  { dimensions := some [{ name := "Currency", value := "USD" }]
    metricName := "EstimatedCharges"
    nameSpace := "AWS/Billing"
    statistics := some ["Maximum"]
    startTime := now - daySeconds
    endTime := now
    period := daySeconds }

/-- The request built by `CloudWatchFacade::get_cost` (lines 106-128): as
`totalCostInput` with the additional dimension `ServiceName=service`. -/
def costInput (now : ℤ) (service : String) : GetMetricStatisticsInput :=
  { dimensions := some [{ name := "Currency", value := "USD" },
                        { name := "ServiceName", value := service }]
    metricName := "EstimatedCharges"
    nameSpace := "AWS/Billing"
    statistics := some ["Maximum"]
    startTime := now - daySeconds
    endTime := now
    period := daySeconds }

/-- The request built by `get_services_in_billing_namespace` (lines 77-85):
namespace `AWS/Billing`, one dimension filter `ServiceName` with absent
value (a wildcard). -/
def listServicesInput : ListMetricsInput :=
  { nameSpace := some "AWS/Billing"
    dimensions := some [{ name := "ServiceName", value := none }]
    metricName := none
    nextToken := none }

/-- Extraction of the scalar statistic from a `get_metric_statistics`
response, duplicated verbatim in `get_total_cost` (lines 64-72) and
`get_cost` (lines 132-141): `0.0` if `datapoints` is absent or empty,
otherwise the `maximum` of the first datapoint, defaulting to `0.0`. -/
def scalarFromOutput (o : GetMetricStatisticsOutput) : ℚ :=
  (o.datapoints.map (fun dp =>
    if dp.isEmpty then 0 else (dp.headD { maximum := none }).maximum.getD 0)).getD 0

/-- Extraction of the service names from a `list_metrics` response
(lines 90-100): flatten each metric's dimensions in response order and
keep, in order, the value of every dimension named `ServiceName`. -/
def servicesFromOutput (o : ListMetricsOutput) : List String :=
  ((o.metrics.getD []).flatMap (fun m => m.dimensions.getD [])).filterMap
    (fun d => if d.name = "ServiceName" then some d.value else none)

/-- The standard AWS region names accepted by `rusoto_core::Region`.
Modelled from the `rusoto_core` dependency (its source is not part of
this repository): `FromStr` for `Region` maps each known region name to
that region and fails on anything else. -/
def knownRegions : List String :=
  ["ap-east-1", "ap-northeast-1", "ap-northeast-2", "ap-south-1",
   "ap-southeast-1", "ap-southeast-2", "ca-central-1", "cn-north-1",
   "cn-northwest-1", "eu-central-1", "eu-north-1", "eu-west-1",
   "eu-west-2", "eu-west-3", "me-south-1", "sa-east-1", "us-east-1",
   "us-east-2", "us-gov-east-1", "us-gov-west-1", "us-west-1",
   "us-west-2"]

/-- Model of `Region::from_str` (used at line 179): succeeds exactly on the known
region names, returning the region unchanged. -/
def regionFromStr (s : String) : Option String :=
  if knownRegions.contains s then some s else none

/-- The fixed SSM parameter name of the webhook URL (line 184). -/
def webhookParamName : String := "/billing-notification/slack-webhook-url"

/-- The SSM request built by `send_to_slack` (lines 183-186). -/
def webhookParamRequest : GetParameterRequest :=
  { name := webhookParamName, withDecryption := some true }

/-- The Slack payload built by `send_to_slack` (lines 192-208): fixed
username and icon emoji; text rendered by
`format!` as the fixed template around the total; one attachment titled
`each service` whose fields are one row per service, the row's value
rendered by `format!` as a dollar sign followed by the cost. -/
def buildPayload (billing : Billing) : Payload :=
  { username := "AWS Billing Notification"
    iconEmoji := ":money_with_wings:"
    text := "今月の請求額は $" ++ fmtF64 billing.total ++ " です"
    attachments := [{ text := "each service"
                      fields := billing.services.map (fun s =>
                        { title := s.name, value := "$" ++ fmtF64 s.cost,
                          short := some true }) }] }

/-- The CloudWatch backend as an oracle: the response (or call failure,
as an error string — the source flattens every error to text via
`HandlerError`) to each possible request. -/
structure CloudWatchBackend where
  getMetricStatistics : GetMetricStatisticsInput → Except String GetMetricStatisticsOutput
  listMetrics : ListMetricsInput → Except String ListMetricsOutput

/-- The SSM backend as an oracle. -/
structure SsmBackend where
  getParameter : GetParameterRequest → Except String GetParameterResult

/-- The Slack transport as an oracle: `newOk` tells whether `Slack::new`
accepts a URL (its URL parser succeeds), `send` gives the outcome of
delivering a payload to a URL. -/
structure SlackTransport where
  newOk : String → Bool
  send : String → Payload → Except String Unit

/-- The process environment: the value of `AWS_REGION`, if present. -/
structure Env where
  awsRegion : Option String

/-- One invocation's external world: all collaborators plus the clock.
`clock k` is the value returned by the `k`-th call of `Utc::now()`
(the source reads the clock anew inside every `get_metric_statistics`
request builder). -/
structure World where
  cw : CloudWatchBackend
  ssm : SsmBackend
  slack : SlackTransport
  env : Env
  clock : ℕ → ℤ

/-- One CloudWatch request, as recorded in a trace. -/
inductive CWQuery where
  | stats (input : GetMetricStatisticsInput)
  | listM (input : ListMetricsInput)
deriving DecidableEq

/-- One external call issued by the invocation: a CloudWatch request
(with the region its client was built for), an SSM request (with the
region its client was built for), or a Slack delivery (with the webhook
URL and the payload). -/
inductive Call where
  | cw (region : String) (q : CWQuery)
  | ssm (region : String) (req : GetParameterRequest)
  | slack (url : String) (p : Payload)
deriving DecidableEq

/-- Embedding of `CloudWatchFacade::get_total_cost` (lines 43-74): reads the clock
(consuming tick `tick`), issues the total-cost request, and extracts the
scalar statistic from the response.  Returns the issued calls and the
result. -/
def get_total_cost (w : World) (tick : ℕ) : List Call × Except String ℚ :=
  let input := totalCostInput (w.clock tick)
  ([Call.cw cloudWatchRegion (CWQuery.stats input)],
   match w.cw.getMetricStatistics input with
   | .error e => .error e
   | .ok out => .ok (scalarFromOutput out))

/-- Embedding of `CloudWatchFacade::get_services_in_billing_namespace` (lines 76-103):
issues the wildcard `ServiceName` list request and extracts the service
names from the response. -/
def get_services_in_billing_namespace (w : World) :
    List Call × Except String (List String) :=
  ([Call.cw cloudWatchRegion (CWQuery.listM listServicesInput)],
   match w.cw.listMetrics listServicesInput with
   | .error e => .error e
   | .ok out => .ok (servicesFromOutput out))

/-- Embedding of `CloudWatchFacade::get_cost` (lines 105-148): reads the clock
(consuming tick `tick`), issues the per-service request, and builds the
`ServiceBilling` from the response. -/
def get_cost (w : World) (tick : ℕ) (service : String) :
    List Call × Except String ServiceBilling :=
  let input := costInput (w.clock tick) service
  ([Call.cw cloudWatchRegion (CWQuery.stats input)],
   match w.cw.getMetricStatistics input with
   | .error e => .error e
   | .ok out => .ok { name := service, cost := scalarFromOutput out })

/-- The per-service loop of `my_handler` (lines 164-167):
`services.iter().map(get_cost).collect::<Result<Vec<_>, _>>()`.  The
iterator is lazy, so collection short-circuits at the first error and
later requests are not issued.  Each `get_cost` call consumes one clock
tick, starting at `tick`. -/
def getCosts (w : World) (tick : ℕ) :
    List String → List Call × Except String (List ServiceBilling)
  | [] => ([], .ok [])
  | s :: rest =>
    match get_cost w tick s with
    | (c1, .error e) => (c1, .error e)
    | (c1, .ok sb) =>
      match getCosts w (tick + 1) rest with
      | (c2, r2) => (c1 ++ c2, r2.map (fun l => sb :: l))

/-- Embedding of `send_to_slack` (lines 177-216): read `AWS_REGION` (returning its
error if absent), parse it as a region (`.unwrap()`: panic, embedded as
`none`, if unknown), fetch the webhook parameter from SSM (returning the
call's error on failure; `.unwrap()` panic if the response has no
parameter or the parameter no value), build the payload, construct the
Slack client (`.unwrap()` panic if the URL is rejected) and send,
mapping a send failure to an error.  Result `none` is a panic; `some r`
a normal return. -/
def send_to_slack (w : World) (billing : Billing) :
    List Call × Option (Except String Unit) :=
  match w.env.awsRegion with
  | none => ([], some (.error "environment variable not found"))
  | some regionStr =>
    match regionFromStr regionStr with
    | none => ([], none)
    | some ssmRegion =>
      let ssmCall := Call.ssm ssmRegion webhookParamRequest
      match w.ssm.getParameter webhookParamRequest with
      | .error e => ([ssmCall], some (.error e))
      | .ok res =>
        match res.parameter with
        | none => ([ssmCall], none)
        | some p =>
          match p.value with
          | none => ([ssmCall], none)
          | some url =>
            let payload := buildPayload billing
            if w.slack.newOk url then
              ([ssmCall, Call.slack url payload],
               match w.slack.send url payload with
               | .ok _ => some (.ok ())
               | .error e => some (.error e))
            else ([ssmCall], none)

/-- Embedding of `my_handler` (lines 160-175): get the total cost, list the services,
get each service's cost (short-circuiting on the first error), assemble
the `Billing`, and hand it to `send_to_slack`.  Every `?` becomes a
propagated `.error`; the returned trace is the concatenation of the
steps' traces up to the point of return. -/
def my_handler (w : World) : List Call × Option (Except String CustomOutput) :=
  match get_total_cost w 0 with
  | (c0, .error e) => (c0, some (.error e))
  | (c0, .ok total) =>
    match get_services_in_billing_namespace w with
    | (c1, .error e) => (c0 ++ c1, some (.error e))
    | (c1, .ok services) =>
      match getCosts w 1 services with
      | (c2, .error e) => (c0 ++ c1 ++ c2, some (.error e))
      | (c2, .ok costs) =>
        match send_to_slack w { total := total, services := costs } with
        | (c3, r3) =>
          (c0 ++ c1 ++ c2 ++ c3, r3.map (fun r => r.map (fun _ => CustomOutput.mk)))

/-- Whether a call is a CloudWatch (metrics) request. -/
def isCw : Call → Bool
  | .cw _ _ => true
  | _ => false

/-- Whether a call is an SSM (secret store) request. -/
def isSsm : Call → Bool
  | .ssm _ _ => true
  | _ => false

/-- Whether a call is a Slack (notification transport) delivery. -/
def isSlack : Call → Bool
  | .slack _ _ => true
  | _ => false

/-- Number of notification-transport invocations in a trace. -/
def slackCount (t : List Call) : ℕ := (t.filter isSlack).length

/-- The payloads handed to the notification transport, in order. -/
def deliveredPayloads (t : List Call) : List Payload :=
  t.filterMap (fun c => match c with | .slack _ p => some p | _ => none)

/-- Pipeline phase of a call: metrics queries (0) come before the secret
lookup (1), which comes before delivery (2). -/
def phase : Call → ℕ
  | .cw _ _ => 0
  | .ssm _ _ => 1
  | .slack _ _ => 2

/-- The expected per-service request sequence for a service list, one
request per name in order, consuming one clock tick each from `t`. -/
def costCallsFrom (w : World) : ℕ → List String → List Call
  | _, [] => []
  | t, s :: rest =>
    Call.cw cloudWatchRegion (CWQuery.stats (costInput (w.clock t) s)) ::
      costCallsFrom w (t + 1) rest

/-- The total-cost request call of an invocation. -/
def totalCall (w : World) : Call :=
  Call.cw cloudWatchRegion (CWQuery.stats (totalCostInput (w.clock 0)))

/-- The service-list request call of an invocation. -/
def listCall : Call :=
  Call.cw cloudWatchRegion (CWQuery.listM listServicesInput)

/-- The rational 12.34, written as an explicit normalized fraction so
that proofs can evaluate it by kernel reduction. -/
def q1234 : ℚ := ⟨617, 50, by decide, by decide⟩

/-- The rational 5.00 as an explicit fraction. -/
def q5 : ℚ := ⟨5, 1, by decide, by decide⟩

/-- The rational 7.34 as an explicit fraction. -/
def q734 : ℚ := ⟨367, 50, by decide, by decide⟩

/-- A webhook URL used by the concrete test worlds. -/
def okUrl : String := "https://hooks.slack.example/T000/B000"

/-- A CloudWatch backend whose every response succeeds with no data. -/
def emptyCw : CloudWatchBackend :=
  { getMetricStatistics := fun _ => .ok { datapoints := some [] }
    listMetrics := fun _ => .ok { metrics := some [] } }

/-- An SSM backend holding the webhook URL. -/
def okSsm : SsmBackend :=
  { getParameter := fun _ => .ok { parameter := some { value := some okUrl } } }

/-- A Slack transport that accepts every URL and delivers successfully. -/
def okSlack : SlackTransport :=
  { newOk := fun _ => true, send := fun _ _ => .ok () }

/-- A fully successful world with no billing data. -/
def W0 : World :=
  { cw := emptyCw, ssm := okSsm, slack := okSlack,
    env := { awsRegion := some "us-east-1" }, clock := fun _ => 0 }

/-- The `list_metrics` response of scenario A: the two services
`AmazonEC2` and `AWSLambda`. -/
def scenarioListOutput : ListMetricsOutput :=
  { metrics := some [
      { dimensions := some [{ name := "ServiceName", value := "AmazonEC2" }] },
      { dimensions := some [{ name := "ServiceName", value := "AWSLambda" }] }] }

/-- The CloudWatch backend of end-to-end scenario A: total 12.34, two
services `AmazonEC2` (5.00) and `AWSLambda` (7.34). -/
def scenarioCw : CloudWatchBackend :=
  { getMetricStatistics := fun input =>
      if input = totalCostInput 0 then
        .ok { datapoints := some [{ maximum := some q1234 }] }
      else if input = costInput 0 "AmazonEC2" then
        .ok { datapoints := some [{ maximum := some q5 }] }
      else if input = costInput 0 "AWSLambda" then
        .ok { datapoints := some [{ maximum := some q734 }] }
      else .error "unexpected request"
    listMetrics := fun _ => .ok scenarioListOutput }

/-- The world of end-to-end scenario A. -/
def WA : World := { W0 with cw := scenarioCw }

/-- A world whose secret store responds `Ok` but with no decrypted value. -/
def Wv : World :=
  { W0 with ssm :=
      { getParameter := fun _ => .ok { parameter := some { value := none } } } }

/-- A world whose secret-store call fails (the store has no such entry;
AWS SSM reports a missing parameter as a `ParameterNotFound` call
error). -/
def WnotFound : World :=
  { W0 with ssm := { getParameter := fun _ => .error "ParameterNotFound" } }

/-- A world whose every `get_metric_statistics` call fails. -/
def WtotalErr : World :=
  { W0 with cw := { getMetricStatistics := fun _ => .error "metrics backend down"
                    listMetrics := fun _ => .ok { metrics := some [] } } }

/-- A world where delivery to Slack fails. -/
def Wd : World :=
  { W0 with slack := { newOk := fun _ => true
                       send := fun _ _ => .error "delivery failed" } }

/-- A CloudWatch backend listing one service and returning empty data. -/
def oneServiceCw : CloudWatchBackend :=
  { getMetricStatistics := fun _ => .ok { datapoints := some [] }
    listMetrics := fun _ => .ok { metrics := some [
      { dimensions := some [{ name := "ServiceName", value := "AmazonEC2" }] }] } }

/-- A world whose clock advances by one second between successive reads. -/
def Wmoving : World :=
  { W0 with cw := oneServiceCw, clock := fun n => (n : ℤ) }

/-- A CloudWatch backend whose `list_metrics` response carries an
unsorted service list with a duplicate and an unrelated dimension. -/
def dupCw : CloudWatchBackend :=
  { getMetricStatistics := fun _ => .ok { datapoints := some [] }
    listMetrics := fun _ => .ok { metrics := some [
      { dimensions := some [{ name := "ServiceName", value := "AmazonS3" },
                            { name := "Currency", value := "USD" }] },
      { dimensions := some [{ name := "ServiceName", value := "AmazonEC2" }] },
      { dimensions := some [{ name := "ServiceName", value := "AmazonS3" }] }] } }

/-- A world whose service listing carries duplicates out of order. -/
def Wdup : World := { W0 with cw := dupCw }

/-- A world running with `AWS_REGION=ap-northeast-1`. -/
def Wregion : World :=
  { W0 with env := { awsRegion := some "ap-northeast-1" } }

/-- A world whose metric responses carry two datapoints with different
maxima (5 first, 12.34 second). -/
def twoPointCw : CloudWatchBackend :=
  { getMetricStatistics := fun _ => .ok { datapoints := some [
      { maximum := some q5 }, { maximum := some q1234 }] }
    listMetrics := fun _ => .ok { metrics := some [] } }

/-- A world whose every metric response has the two datapoints above. -/
def W9 : World := { W0 with cw := twoPointCw }

/-- The `Billing` value aggregated in scenario A. -/
def billA : Billing :=
  { total := q1234
    services := [{ name := "AmazonEC2", cost := q5 },
                 { name := "AWSLambda", cost := q734 }] }

/-- Spec-side helper (follows the spec's words, for comparison with the
source-derived `servicesFromOutput`): the values of the dimensions named
`ServiceName`, in the order the dimensions appear. -/
def dimensionServiceNames : List Dimension → List String
  | [] => []
  | d :: ds =>
    (if d.name = "ServiceName" then [d.value] else []) ++ dimensionServiceNames ds

/-- Spec-side characterization (follows the spec's words): the sequence
of `ServiceName` dimension values in the order received across the
response's metrics, with no deduplication and no sorting. -/
def serviceNameValuesSpec : List Metric → List String
  | [] => []
  | m :: ms => dimensionServiceNames (m.dimensions.getD []) ++ serviceNameValuesSpec ms

theorem q1234_eq : (12.34 : ℚ) = q1234 := by
  rw [q1234, Rat.mk'_eq_divInt]; norm_num [Rat.divInt_eq_div]

theorem q5_eq : (5.00 : ℚ) = q5 := by
  rw [q5, Rat.mk'_eq_divInt]; norm_num [Rat.divInt_eq_div]

theorem q734_eq : (7.34 : ℚ) = q734 := by
  rw [q734, Rat.mk'_eq_divInt]; norm_num [Rat.divInt_eq_div]

theorem costCallsFrom_length (w : World) (t : ℕ) (s : List String) :
    (costCallsFrom w t s).length = s.length := by
  induction s generalizing t with
  | nil => rfl
  | cons a l ih => simp [costCallsFrom, ih]

theorem costCallsFrom_all_cw (w : World) (t : ℕ) (s : List String)
    (c : Call) (hc : c ∈ costCallsFrom w t s) : isCw c = true := by
  induction s generalizing t with
  | nil => simp [costCallsFrom] at hc
  | cons a l ih =>
    simp only [costCallsFrom, List.mem_cons] at hc
    rcases hc with h | h
    · subst h; rfl
    · exact ih _ h

theorem getCosts_all_cw (w : World) (t : ℕ) (s : List String)
    (c : Call) (hc : c ∈ (getCosts w t s).1) : isCw c = true := by
  induction s generalizing t with
  | nil => simp [getCosts] at hc
  | cons a l ih =>
    rw [getCosts] at hc
    rcases h1 : get_cost w t a with ⟨c1, r1⟩
    rcases r1 with e | sb
    · rw [h1] at hc
      simp only at hc
      have hc1 : c1 = [Call.cw cloudWatchRegion
          (CWQuery.stats (costInput (w.clock t) a))] := by
        have := congrArg Prod.fst h1
        simpa [get_cost] using this.symm
      subst hc1
      simp only [List.mem_singleton] at hc
      subst hc; rfl
    · rw [h1] at hc
      rcases h2 : getCosts w (t + 1) l with ⟨c2, r2⟩
      rw [h2] at hc
      simp only [List.mem_append] at hc
      rcases hc with h | h
      · have hc1 : c1 = [Call.cw cloudWatchRegion
            (CWQuery.stats (costInput (w.clock t) a))] := by
          have := congrArg Prod.fst h1
          simpa [get_cost] using this.symm
        subst hc1
        simp only [List.mem_singleton] at h
        subst h; rfl
      · exact ih _ (by rw [h2]; exact h)

theorem getCosts_mem (w : World) (t : ℕ) (s : List String)
    (c : Call) (hc : c ∈ (getCosts w t s).1) :
    ∃ k svc, svc ∈ s ∧
      c = Call.cw cloudWatchRegion (CWQuery.stats (costInput (w.clock k) svc)) := by
  induction s generalizing t with
  | nil => simp [getCosts] at hc
  | cons a l ih =>
    rw [getCosts] at hc
    rcases h1 : get_cost w t a with ⟨c1, r1⟩
    have hc1 : c1 = [Call.cw cloudWatchRegion
        (CWQuery.stats (costInput (w.clock t) a))] := by
      have := congrArg Prod.fst h1
      simpa [get_cost] using this.symm
    rcases r1 with e | sb
    · rw [h1] at hc
      simp only at hc
      subst hc1
      simp only [List.mem_singleton] at hc
      exact ⟨t, a, by simp, hc⟩
    · rw [h1] at hc
      rcases h2 : getCosts w (t + 1) l with ⟨c2, r2⟩
      rw [h2] at hc
      simp only [List.mem_append] at hc
      rcases hc with h | h
      · subst hc1
        simp only [List.mem_singleton] at h
        exact ⟨t, a, by simp, h⟩
      · obtain ⟨k, svc, hs, hcc⟩ := ih _ (by rw [h2]; exact h)
        exact ⟨k, svc, by simp [hs], hcc⟩

theorem getCosts_ok (w : World) (t : ℕ) (s : List String)
    (costs : List ServiceBilling)
    (h : (getCosts w t s).2 = .ok costs) :
    costs.map ServiceBilling.name = s ∧
      (getCosts w t s).1 = costCallsFrom w t s := by
  induction s generalizing t costs with
  | nil =>
    simp only [getCosts] at h ⊢
    cases h
    exact ⟨rfl, rfl⟩
  | cons a l ih =>
    rw [getCosts] at h ⊢
    rcases h1 : w.cw.getMetricStatistics (costInput (w.clock t) a) with e | out
    · simp [get_cost, h1] at h
    · rcases h2 : getCosts w (t + 1) l with ⟨c2, r2⟩
      rcases r2 with e | l2
      · simp [get_cost, h1, h2, Except.map] at h
      · have ih2 := ih (t + 1) l2 (by rw [h2])
        simp only [get_cost, h1, h2, Except.map] at h ⊢
        cases h
        refine ⟨?_, ?_⟩
        · simp [ih2.1]
        · rw [costCallsFrom]
          have h4 := ih2.2
          rw [h2] at h4
          simp only [List.cons_append, List.nil_append]
          exact congrArg _ h4

theorem getCosts_err (w : World) (t : ℕ) (pre : List String) (svc : String)
    (post : List String) (cs : List ServiceBilling) (e : String)
    (hpre : (getCosts w t pre).2 = .ok cs)
    (herr : w.cw.getMetricStatistics (costInput (w.clock (t + pre.length)) svc)
        = .error e) :
    (getCosts w t (pre ++ svc :: post)).2 = .error e := by
  induction pre generalizing t cs with
  | nil =>
    simp only [List.length_nil, Nat.add_zero] at herr
    simp [getCosts, get_cost, herr]
  | cons a l ih =>
    simp only [List.cons_append]
    rw [getCosts] at hpre
    rw [getCosts]
    rcases h1 : w.cw.getMetricStatistics (costInput (w.clock t) a) with e1 | out
    · simp [get_cost, h1] at hpre
    · rcases h2 : getCosts w (t + 1) l with ⟨c2, r2⟩
      rcases r2 with e2 | l2
      · simp [get_cost, h1, h2, Except.map] at hpre
      · have herr2 : w.cw.getMetricStatistics
            (costInput (w.clock (t + 1 + l.length)) svc) = .error e := by
          have h5 : t + 1 + l.length = t + (a :: l).length := by
            simp [List.length_cons]; omega
          rw [h5]; exact herr
        have h6 := ih (t + 1) l2 (by rw [h2]) herr2
        rcases h3 : getCosts w (t + 1) (l ++ svc :: post) with ⟨c3, r3⟩
        rw [h3] at h6
        simp only [List.cons_append, get_cost, h1, h3]
        simp only at h6
        rw [h6]
        rfl

theorem slackCount_append (a b : List Call) :
    slackCount (a ++ b) = slackCount a + slackCount b := by
  simp [slackCount, List.filter_append]

theorem slackCount_of_all_cw (l : List Call)
    (h : ∀ c ∈ l, isCw c = true) : slackCount l = 0 := by
  simp only [slackCount, List.length_eq_zero, List.filter_eq_nil_iff]
  intro c hc
  have := h c hc
  cases c with
  | cw r q => simp [isSlack]
  | ssm r req => simp [isCw] at this
  | slack u p => simp [isCw] at this

/-- Exhaustive case analysis of `send_to_slack`: the environment read,
region parse, SSM fetch, response unwraps and Slack construction give
the possible trace/result shapes. -/
theorem send_to_slack_cases (w : World) (b : Billing) :
    (w.env.awsRegion = none ∧
      send_to_slack w b = ([], some (.error "environment variable not found"))) ∨
    (∃ s, w.env.awsRegion = some s ∧ regionFromStr s = none ∧
      send_to_slack w b = ([], none)) ∨
    (∃ s reg, w.env.awsRegion = some s ∧ regionFromStr s = some reg ∧
      ((∃ e, w.ssm.getParameter webhookParamRequest = .error e ∧
          send_to_slack w b = ([Call.ssm reg webhookParamRequest], some (.error e))) ∨
       (send_to_slack w b = ([Call.ssm reg webhookParamRequest], none)) ∨
       (∃ url r, w.slack.newOk url = true ∧
          send_to_slack w b =
            ([Call.ssm reg webhookParamRequest, Call.slack url (buildPayload b)],
             some r)))) := by
  rcases h1 : w.env.awsRegion with _ | s
  · exact Or.inl ⟨rfl, by simp [send_to_slack, h1]⟩
  · rcases h2 : regionFromStr s with _ | reg
    · exact Or.inr (Or.inl ⟨s, rfl, h2, by simp [send_to_slack, h1, h2]⟩)
    · refine Or.inr (Or.inr ⟨s, reg, rfl, h2, ?_⟩)
      rcases h3 : w.ssm.getParameter webhookParamRequest with e | res
      · exact Or.inl ⟨e, rfl, by simp [send_to_slack, h1, h2, h3]⟩
      · rcases h4 : res.parameter with _ | p
        · exact Or.inr (Or.inl (by simp [send_to_slack, h1, h2, h3, h4]))
        · rcases h5 : p.value with _ | url
          · exact Or.inr (Or.inl (by simp [send_to_slack, h1, h2, h3, h4, h5]))
          · rcases h6 : w.slack.newOk url with _ | _
            · exact Or.inr (Or.inl (by simp [send_to_slack, h1, h2, h3, h4, h5, h6]))
            · refine Or.inr (Or.inr ⟨url, ?_, h6, ?_⟩)
              · exact match w.slack.send url (buildPayload b) with
                  | .ok _ => .ok ()
                  | .error e => .error e
              · simp only [send_to_slack, h1, h2, h3, h4, h5, h6, if_true]
                rcases h7 : w.slack.send url (buildPayload b) with e | u <;> simp [h7]

/-- The notification transport is invoked at most once per
`send_to_slack` call. -/
theorem send_to_slack_slackCount_le_one (w : World) (b : Billing) :
    slackCount (send_to_slack w b).1 ≤ 1 := by
  rcases send_to_slack_cases w b with ⟨_, h⟩ | ⟨s, _, _, h⟩ |
      ⟨s, reg, _, _, ⟨e, _, h⟩ | h | ⟨url, r, _, h⟩⟩ <;>
    simp [h, slackCount, isSlack, List.filter]

/-- If `send_to_slack` returns without error, it invoked the transport
exactly once. -/
theorem send_to_slack_ok_slackCount (w : World) (b : Billing) (u : Unit)
    (h : (send_to_slack w b).2 = some (.ok u)) :
    slackCount (send_to_slack w b).1 = 1 := by
  rcases send_to_slack_cases w b with ⟨_, hc⟩ | ⟨s, _, _, hc⟩ |
      ⟨s, reg, _, _, ⟨e, _, hc⟩ | hc | ⟨url, r, _, hc⟩⟩ <;>
    rw [hc] at h ⊢ <;> simp_all [slackCount, isSlack, List.filter]

/-- Aggregation-level case split of `my_handler`: either a metrics step
failed (the result is that error and every call issued is a metrics
call), or aggregation succeeded with some `Billing` and the invocation
continues into `send_to_slack`. -/
theorem my_handler_split (w : World) :
    (∃ mets e, my_handler w = (mets, some (.error e)) ∧
        ∀ c ∈ mets, isCw c = true) ∨
    (∃ outT outL costs,
        w.cw.getMetricStatistics (totalCostInput (w.clock 0)) = .ok outT ∧
        w.cw.listMetrics listServicesInput = .ok outL ∧
        (getCosts w 1 (servicesFromOutput outL)).2 = .ok costs ∧
        my_handler w =
          ((totalCall w :: listCall :: (getCosts w 1 (servicesFromOutput outL)).1) ++
             (send_to_slack w { total := scalarFromOutput outT, services := costs }).1,
           (send_to_slack w { total := scalarFromOutput outT, services := costs }).2.map
             (fun r => r.map (fun _ => CustomOutput.mk)))) := by
  rcases h1 : w.cw.getMetricStatistics (totalCostInput (w.clock 0)) with e | outT
  · refine Or.inl ⟨[totalCall w], e, ?_, ?_⟩
    · simp [my_handler, get_total_cost, totalCall, h1]
    · intro c hc
      simp only [List.mem_singleton] at hc
      subst hc; rfl
  · rcases h2 : w.cw.listMetrics listServicesInput with e | outL
    · refine Or.inl ⟨[totalCall w, listCall], e, ?_, ?_⟩
      · simp [my_handler, get_total_cost, get_services_in_billing_namespace,
          totalCall, listCall, h1, h2]
      · intro c hc
        simp only [List.mem_cons, List.mem_singleton] at hc
        rcases hc with h | h | h
        · subst h; rfl
        · subst h; rfl
        · simp at h
    · rcases h3 : getCosts w 1 (servicesFromOutput outL) with ⟨c2, r2⟩
      rcases r2 with e | costs
      · refine Or.inl ⟨totalCall w :: listCall :: c2, e, ?_, ?_⟩
        · simp [my_handler, get_total_cost, get_services_in_billing_namespace,
            totalCall, listCall, h1, h2, h3]
        · intro c hc
          simp only [List.mem_cons] at hc
          rcases hc with h | h | h
          · subst h; rfl
          · subst h; rfl
          · exact getCosts_all_cw w 1 _ c (by rw [h3]; exact h)
      · refine Or.inr ⟨outT, outL, costs, rfl, rfl, ?_, ?_⟩
        · rw [h3]
        · simp [my_handler, get_total_cost, get_services_in_billing_namespace,
            totalCall, listCall, h1, h2, h3, List.append_assoc]

theorem phase_eq_zero_of_isCw (c : Call) (h : isCw c = true) : phase c = 0 := by
  cases c with
  | cw r q => rfl
  | ssm r req => simp [isCw] at h
  | slack u p => simp [isCw] at h

theorem pairwise_phase_of_all_cw (l : List Call)
    (h : ∀ c ∈ l, isCw c = true) : (l.map phase).Pairwise (· ≤ ·) := by
  induction l with
  | nil => simp
  | cons a t ih =>
    simp only [List.map_cons, List.pairwise_cons]
    refine ⟨?_, ih (fun c hc => h c (List.mem_cons_of_mem _ hc))⟩
    intro b hb
    rw [phase_eq_zero_of_isCw a (h a (List.mem_cons_self _ _))]
    exact Nat.zero_le b

theorem send_to_slack_no_cw (w : World) (b : Billing) (c : Call)
    (hc : c ∈ (send_to_slack w b).1) : isCw c = false := by
  rcases send_to_slack_cases w b with ⟨_, h⟩ | ⟨s, _, _, h⟩ |
      ⟨s, reg, _, _, ⟨e, _, h⟩ | h | ⟨url, r, _, h⟩⟩
  · rw [h] at hc
    exact absurd (show c ∈ ([] : List Call) from hc) (by simp)
  · rw [h] at hc
    exact absurd (show c ∈ ([] : List Call) from hc) (by simp)
  · rw [h] at hc
    have hc2 : c ∈ [Call.ssm reg webhookParamRequest] := hc
    simp only [List.mem_singleton] at hc2
    subst hc2; rfl
  · rw [h] at hc
    have hc2 : c ∈ [Call.ssm reg webhookParamRequest] := hc
    simp only [List.mem_singleton] at hc2
    subst hc2; rfl
  · rw [h] at hc
    have hc2 : c ∈ [Call.ssm reg webhookParamRequest,
        Call.slack url (buildPayload b)] := hc
    simp only [List.mem_cons, List.mem_singleton, List.not_mem_nil, or_false] at hc2
    rcases hc2 with hc2 | hc2 <;> (subst hc2; rfl)

theorem send_to_slack_filter_cw (w : World) (b : Billing) :
    (send_to_slack w b).1.filter isCw = [] := by
  rw [List.filter_eq_nil_iff]
  intro a ha
  simp [send_to_slack_no_cw w b a ha]

theorem send_to_slack_phases (w : World) (b : Billing) :
    ((send_to_slack w b).1.map phase).Pairwise (· ≤ ·) ∧
    ∀ x ∈ (send_to_slack w b).1.map phase, 1 ≤ x := by
  rcases send_to_slack_cases w b with ⟨_, h⟩ | ⟨s, _, _, h⟩ |
      ⟨s, reg, _, _, ⟨e, _, h⟩ | h | ⟨url, r, _, h⟩⟩ <;>
    rw [h] <;> constructor <;> simp [phase]

theorem regionFromStr_eq (s r : String) (h : regionFromStr s = some r) :
    s = r := by
  rw [regionFromStr] at h
  split at h
  · exact Option.some.inj h
  · exact absurd h (by simp)

/-- Equation for `my_handler` under explicit success hypotheses for the three
aggregation steps: the equation giving its trace and its result. -/
theorem my_handler_eq_of_ok (w : World) (outT : GetMetricStatisticsOutput)
    (outL : ListMetricsOutput) (costs : List ServiceBilling)
    (htot : w.cw.getMetricStatistics (totalCostInput (w.clock 0)) = .ok outT)
    (hlist : w.cw.listMetrics listServicesInput = .ok outL)
    (hcosts : (getCosts w 1 (servicesFromOutput outL)).2 = .ok costs) :
    my_handler w =
      ((totalCall w :: listCall :: (getCosts w 1 (servicesFromOutput outL)).1) ++
         (send_to_slack w { total := scalarFromOutput outT, services := costs }).1,
       (send_to_slack w { total := scalarFromOutput outT, services := costs }).2.map
         (fun r => r.map (fun _ => CustomOutput.mk))) := by
  rcases h3 : getCosts w 1 (servicesFromOutput outL) with ⟨c2, r2⟩
  rw [h3] at hcosts
  simp only at hcosts
  subst hcosts
  simp [my_handler, get_total_cost, get_services_in_billing_namespace,
    totalCall, listCall, htot, hlist, h3, List.append_assoc]

/-- Trace-level case split of `my_handler`: the possible call sequences. -/
theorem my_handler_trace_cases (w : World) :
    (my_handler w).1 = [totalCall w] ∨
    (my_handler w).1 = [totalCall w, listCall] ∨
    (∃ outL, w.cw.listMetrics listServicesInput = .ok outL ∧
      ((my_handler w).1 =
          totalCall w :: listCall :: (getCosts w 1 (servicesFromOutput outL)).1 ∨
       ∃ b, (my_handler w).1 =
          totalCall w :: listCall :: ((getCosts w 1 (servicesFromOutput outL)).1 ++
            (send_to_slack w b).1))) := by
  rcases h1 : w.cw.getMetricStatistics (totalCostInput (w.clock 0)) with e | outT
  · exact Or.inl (by simp [my_handler, get_total_cost, totalCall, h1])
  · rcases h2 : w.cw.listMetrics listServicesInput with e | outL
    · exact Or.inr (Or.inl (by
        simp [my_handler, get_total_cost, get_services_in_billing_namespace,
          totalCall, listCall, h1, h2]))
    · refine Or.inr (Or.inr ⟨outL, rfl, ?_⟩)
      rcases h3 : getCosts w 1 (servicesFromOutput outL) with ⟨c2, r2⟩
      rcases r2 with e | costs
      · refine Or.inl ?_
        simp [my_handler, get_total_cost, get_services_in_billing_namespace,
          totalCall, listCall, h1, h2, h3]
      · refine Or.inr ⟨⟨scalarFromOutput outT, costs⟩, ?_⟩
        simp [my_handler, get_total_cost, get_services_in_billing_namespace,
          totalCall, listCall, h1, h2, h3, List.append_assoc]

/-- Every `get_metric_statistics` request of an invocation is either the
total-cost request at the first clock reading or a per-service request at
some clock reading. -/
theorem my_handler_stats_mem (w : World) (r : String)
    (input : GetMetricStatisticsInput)
    (h : Call.cw r (CWQuery.stats input) ∈ (my_handler w).1) :
    r = cloudWatchRegion ∧
    (input = totalCostInput (w.clock 0) ∨
      ∃ k svc, input = costInput (w.clock k) svc) := by
  rcases my_handler_trace_cases w with h1 | h1 | ⟨outL, _, h1 | ⟨b, h1⟩⟩ <;> rw [h1] at h
  · simp only [List.mem_singleton, totalCall, Call.cw.injEq, CWQuery.stats.injEq] at h
    exact ⟨h.1, Or.inl h.2⟩
  · simp only [List.mem_cons, List.not_mem_nil, or_false, totalCall, listCall,
      Call.cw.injEq, CWQuery.stats.injEq] at h
    rcases h with h | h
    · exact ⟨h.1, Or.inl h.2⟩
    · exact absurd h.2 (by simp)
  · simp only [List.mem_cons] at h
    rcases h with h | h | h
    · simp only [totalCall, Call.cw.injEq, CWQuery.stats.injEq] at h
      exact ⟨h.1, Or.inl h.2⟩
    · simp only [listCall, Call.cw.injEq] at h
      exact absurd h.2 (by simp)
    · obtain ⟨k, svc, _, heq⟩ := getCosts_mem w 1 _ _ h
      simp only [Call.cw.injEq, CWQuery.stats.injEq] at heq
      exact ⟨heq.1, Or.inr ⟨k, svc, heq.2⟩⟩
  · simp only [List.mem_cons, List.mem_append] at h
    rcases h with h | h | h | h
    · simp only [totalCall, Call.cw.injEq, CWQuery.stats.injEq] at h
      exact ⟨h.1, Or.inl h.2⟩
    · simp only [listCall, Call.cw.injEq] at h
      exact absurd h.2 (by simp)
    · obtain ⟨k, svc, _, heq⟩ := getCosts_mem w 1 _ _ h
      simp only [Call.cw.injEq, CWQuery.stats.injEq] at heq
      exact ⟨heq.1, Or.inr ⟨k, svc, heq.2⟩⟩
    · have := send_to_slack_no_cw w b _ h
      simp [isCw] at this

/-- Every secret-store call of an invocation goes to the region named by
the `AWS_REGION` environment value and asks for the fixed webhook
parameter. -/
theorem my_handler_ssm_mem (w : World) (r : String) (req : GetParameterRequest)
    (h : Call.ssm r req ∈ (my_handler w).1) :
    w.env.awsRegion = some r ∧ req = webhookParamRequest := by
  rcases my_handler_split w with ⟨mets, e, heq, hcw⟩ |
      ⟨outT, outL, costs, _, _, _, heq⟩
  · rw [heq] at h
    have h2 : Call.ssm r req ∈ mets := h
    have := hcw _ h2
    simp [isCw] at this
  · rw [heq] at h
    have h2 : Call.ssm r req ∈ (totalCall w :: listCall ::
        (getCosts w 1 (servicesFromOutput outL)).1) ++
        (send_to_slack w { total := scalarFromOutput outT, services := costs }).1 := h
    simp only [List.mem_append, List.mem_cons] at h2
    rcases h2 with (h2 | h2 | h2) | h2
    · simp [totalCall] at h2
    · simp [listCall] at h2
    · have := getCosts_all_cw w 1 _ _ h2
      simp [isCw] at this
    · rcases send_to_slack_cases w ⟨scalarFromOutput outT, costs⟩ with
          ⟨_, hs⟩ | ⟨s, _, _, hs⟩ |
          ⟨s, reg, henv, hreg, ⟨e, _, hs⟩ | hs | ⟨url, rr, _, hs⟩⟩
      · rw [hs] at h2
        exact absurd (show Call.ssm r req ∈ ([] : List Call) from h2) (by simp)
      · rw [hs] at h2
        exact absurd (show Call.ssm r req ∈ ([] : List Call) from h2) (by simp)
      · rw [hs] at h2
        have h3 : Call.ssm r req ∈ [Call.ssm reg webhookParamRequest] := h2
        simp only [List.mem_singleton, Call.ssm.injEq] at h3
        refine ⟨?_, h3.2⟩
        rw [henv, regionFromStr_eq s reg hreg, h3.1]
      · rw [hs] at h2
        have h3 : Call.ssm r req ∈ [Call.ssm reg webhookParamRequest] := h2
        simp only [List.mem_singleton, Call.ssm.injEq] at h3
        refine ⟨?_, h3.2⟩
        rw [henv, regionFromStr_eq s reg hreg, h3.1]
      · rw [hs] at h2
        have h3 : Call.ssm r req ∈ [Call.ssm reg webhookParamRequest,
            Call.slack url (buildPayload
              { total := scalarFromOutput outT, services := costs })] := h2
        simp only [List.mem_cons, List.mem_singleton, List.not_mem_nil, or_false,
          Call.ssm.injEq] at h3
        rcases h3 with h3 | h3
        · refine ⟨?_, h3.2⟩
          rw [henv, regionFromStr_eq s reg hreg, h3.1]
        · exact absurd h3 (by simp)

theorem deliveredPayloads_append (a b : List Call) :
    deliveredPayloads (a ++ b) =
      deliveredPayloads a ++ deliveredPayloads b := by
  simp [deliveredPayloads, List.filterMap_append]

theorem deliveredPayloads_of_all_cw (l : List Call)
    (h : ∀ c ∈ l, isCw c = true) : deliveredPayloads l = [] := by
  rw [deliveredPayloads, List.filterMap_eq_nil_iff]
  intro c hc
  have := h c hc
  cases c with
  | cw r q => rfl
  | ssm r req => simp [isCw] at this
  | slack u p => simp [isCw] at this

/-- C1 counterexample: the claim says the webhook secret is resolved
before any metrics query ("no metrics query is issued before the webhook
secret has been resolved").  In the run on the all-successful world `W0`
this fails: there is a trace prefix (the first call) that contains a
metrics query but no secret-store call. -/
theorem C1_counterexample :
    ¬ (∀ n : ℕ, ((my_handler W0).1.take n).any isCw = true →
        ((my_handler W0).1.take n).any isSsm = true) := by
  intro h
  exact absurd (h 1 (by decide)) (by decide)

/-- C1 (amended): the pipeline's steps are ordered the other way round:
aggregate billing (all metrics queries) first, then the webhook secret
resolution, then delivery.  Formally, along every invocation's trace the
phase (metrics = 0, secret store = 1, delivery = 2) is non-decreasing,
so no secret-store call precedes any metrics query and no delivery
precedes the secret resolution. -/
theorem C1_amended (w : World) :
    ((my_handler w).1.map phase).Pairwise (· ≤ ·) := by
  rcases my_handler_split w with ⟨mets, e, heq, hcw⟩ |
      ⟨outT, outL, costs, _, _, _, heq⟩
  · rw [heq]
    exact pairwise_phase_of_all_cw mets hcw
  · have hmets : ∀ c ∈ totalCall w :: listCall ::
        (getCosts w 1 (servicesFromOutput outL)).1, isCw c = true := by
      intro c hc
      simp only [List.mem_cons] at hc
      rcases hc with h | h | h
      · subst h; rfl
      · subst h; rfl
      · exact getCosts_all_cw w 1 _ c h
    have hsend := send_to_slack_phases w ⟨scalarFromOutput outT, costs⟩
    simp only [heq]
    rw [List.map_append, List.pairwise_append]
    refine ⟨pairwise_phase_of_all_cw _ hmets, hsend.1, ?_⟩
    intro a ha b hb
    simp only [List.mem_map] at ha
    obtain ⟨c, hc, rfl⟩ := ha
    rw [phase_eq_zero_of_isCw c (hmets c hc)]
    exact Nat.zero_le b

/-- C1 witness: the phase ordering instantiated on the concrete
all-successful world `W0`. -/
theorem C1_witness : ((my_handler W0).1.map phase).Pairwise (· ≤ ·) :=
  C1_amended W0

/-- C2 counterexample: in world `Wv` the secret store responds
successfully but carries no decrypted value; the claim says the
invocation then returns a `SecretNotFoundError` error value to its
caller, but the handler in fact panics (the `.unwrap()` on the absent
value), embedded as result `none` — no error value is returned. -/
theorem C2_counterexample :
    Wv.ssm.getParameter webhookParamRequest =
      .ok { parameter := some { value := none } } ∧
    (my_handler Wv).2 = none ∧
    ¬ ∃ e, (my_handler Wv).2 = some (Except.error e) := by
  refine ⟨rfl, by decide, ?_⟩
  rintro ⟨e, he⟩
  have h0 : (my_handler Wv).2 = none := by decide
  rw [h0] at he
  exact Option.noConfusion he

/-- C2 (amended): when the aggregation steps succeed and the secret step
is reached, a failing secret-store call (AWS SSM reports a missing
parameter as a call error) makes the invocation return that error to its
caller with the notification transport invoked zero times; but a
successful store response carrying no parameter or no decrypted value
makes the invocation panic instead of returning an error value — the
transport is still invoked zero times. -/
theorem C2_amended (w : World) (outT : GetMetricStatisticsOutput)
    (outL : ListMetricsOutput) (costs : List ServiceBilling) (s reg : String)
    (htot : w.cw.getMetricStatistics (totalCostInput (w.clock 0)) = .ok outT)
    (hlist : w.cw.listMetrics listServicesInput = .ok outL)
    (hcosts : (getCosts w 1 (servicesFromOutput outL)).2 = .ok costs)
    (henv : w.env.awsRegion = some s)
    (hreg : regionFromStr s = some reg) :
    (∀ e, w.ssm.getParameter webhookParamRequest = .error e →
        (my_handler w).2 = some (.error e) ∧
        slackCount (my_handler w).1 = 0) ∧
    (∀ res, w.ssm.getParameter webhookParamRequest = .ok res →
        res.parameter.bind Parameter.value = none →
        (my_handler w).2 = none ∧ slackCount (my_handler w).1 = 0) := by
  have heq := my_handler_eq_of_ok w outT outL costs htot hlist hcosts
  have hmets : ∀ c ∈ totalCall w :: listCall ::
      (getCosts w 1 (servicesFromOutput outL)).1, isCw c = true := by
    intro c hc
    simp only [List.mem_cons] at hc
    rcases hc with h | h | h
    · subst h; rfl
    · subst h; rfl
    · exact getCosts_all_cw w 1 _ c h
  constructor
  · intro e hssm
    have hs : send_to_slack w ⟨scalarFromOutput outT, costs⟩ =
        ([Call.ssm reg webhookParamRequest], some (.error e)) := by
      simp [send_to_slack, henv, hreg, hssm]
    rw [heq, hs]
    refine ⟨by simp [Except.map], ?_⟩
    simp only [slackCount_append, slackCount_of_all_cw _ hmets]
    simp [slackCount, isSlack, List.filter]
  · intro res hssm hval
    have hs : send_to_slack w ⟨scalarFromOutput outT, costs⟩ =
        ([Call.ssm reg webhookParamRequest], none) := by
      rcases hp : res.parameter with _ | p
      · simp [send_to_slack, henv, hreg, hssm, hp]
      · rcases hv : p.value with _ | url
        · simp [send_to_slack, henv, hreg, hssm, hp, hv]
        · rw [hp] at hval
          have hval2 : p.value = none := hval
          rw [hval2] at hv
          exact absurd hv (by simp)
    rw [heq, hs]
    refine ⟨by simp, ?_⟩
    simp only [slackCount_append, slackCount_of_all_cw _ hmets]
    simp [slackCount, isSlack, List.filter]

/-- C2 witness: in world `WnotFound` the store call fails with
`ParameterNotFound`; the invocation surfaces that error and the
transport is never invoked. -/
theorem C2_witness :
    (my_handler WnotFound).2 = some (.error "ParameterNotFound") ∧
    slackCount (my_handler WnotFound).1 = 0 :=
  (C2_amended WnotFound ⟨some []⟩ ⟨some []⟩ [] "us-east-1" "us-east-1"
    rfl rfl rfl rfl (by decide)).1 "ParameterNotFound" rfl

/-- C3 counterexample: in world `Wd` every step succeeds except delivery
itself, which fails.  A step has failed and the invocation returns a
single error, but the notification transport has been invoked once, not
zero times as the claim states for any failing step. -/
theorem C3_counterexample :
    (my_handler Wd).2 = some (.error "delivery failed") ∧
    slackCount (my_handler Wd).1 = 1 :=
  ⟨by decide, by decide⟩

/-- C3 (amended): a failure of the total query, of the list query, or of
any single per-service query makes the invocation return that error with
the transport invoked zero times; if the invocation returns success the
transport was invoked exactly once; the transport is never invoked more
than once; and every payload it receives is built from a complete
`Billing` (its rows cover the full listed service sequence, in order) —
no partial value is ever delivered.  The claim's "transport invoked zero
times on any step's failure" holds for every step except a failure of
the delivery call itself, where the transport has been invoked exactly
once (and no notification was delivered). -/
theorem C3_amended (w : World) :
    (∀ e, w.cw.getMetricStatistics (totalCostInput (w.clock 0)) = .error e →
        (my_handler w).2 = some (.error e) ∧
        slackCount (my_handler w).1 = 0) ∧
    (∀ outT e, w.cw.getMetricStatistics (totalCostInput (w.clock 0)) = .ok outT →
        w.cw.listMetrics listServicesInput = .error e →
        (my_handler w).2 = some (.error e) ∧
        slackCount (my_handler w).1 = 0) ∧
    (∀ outT outL pre svc post cs e,
        w.cw.getMetricStatistics (totalCostInput (w.clock 0)) = .ok outT →
        w.cw.listMetrics listServicesInput = .ok outL →
        servicesFromOutput outL = pre ++ svc :: post →
        (getCosts w 1 pre).2 = .ok cs →
        w.cw.getMetricStatistics
          (costInput (w.clock (1 + pre.length)) svc) = .error e →
        (my_handler w).2 = some (.error e) ∧
        slackCount (my_handler w).1 = 0) ∧
    (∀ u, (my_handler w).2 = some (.ok u) →
        slackCount (my_handler w).1 = 1) ∧
    slackCount (my_handler w).1 ≤ 1 ∧
    (∀ p, p ∈ deliveredPayloads (my_handler w).1 →
        ∃ outT outL costs,
          w.cw.getMetricStatistics (totalCostInput (w.clock 0)) = .ok outT ∧
          w.cw.listMetrics listServicesInput = .ok outL ∧
          (getCosts w 1 (servicesFromOutput outL)).2 = .ok costs ∧
          costs.map ServiceBilling.name = servicesFromOutput outL ∧
          p = buildPayload ⟨scalarFromOutput outT, costs⟩) := by
  refine ⟨?_, ?_, ?_, ?_, ?_, ?_⟩
  · intro e h
    have heq : my_handler w = ([totalCall w], some (.error e)) := by
      simp [my_handler, get_total_cost, totalCall, h]
    rw [heq]
    exact ⟨rfl, by simp [slackCount, isSlack, List.filter, totalCall]⟩
  · intro outT e h1 h2
    have heq : my_handler w = ([totalCall w, listCall], some (.error e)) := by
      simp [my_handler, get_total_cost, get_services_in_billing_namespace,
        totalCall, listCall, h1, h2]
    rw [heq]
    exact ⟨rfl, by simp [slackCount, isSlack, List.filter, totalCall, listCall]⟩
  · intro outT outL pre svc post cs e h1 h2 hsplit hpre herr
    have hg2 : (getCosts w 1 (servicesFromOutput outL)).2 = .error e := by
      rw [hsplit]
      exact getCosts_err w 1 pre svc post cs e hpre herr
    rcases hg : getCosts w 1 (servicesFromOutput outL) with ⟨c2, r2⟩
    rw [hg] at hg2
    simp only at hg2
    subst hg2
    have heq : my_handler w = (totalCall w :: listCall :: c2,
        some (.error e)) := by
      simp [my_handler, get_total_cost, get_services_in_billing_namespace,
        totalCall, listCall, h1, h2, hg]
    rw [heq]
    refine ⟨rfl, slackCount_of_all_cw _ ?_⟩
    intro c hc
    simp only [List.mem_cons] at hc
    rcases hc with h | h | h
    · subst h; rfl
    · subst h; rfl
    · exact getCosts_all_cw w 1 _ c (by rw [hg]; exact h)
  · intro u hres
    rcases my_handler_split w with ⟨mets, e, heq, hcw⟩ |
        ⟨outT, outL, costs, _, _, _, heq⟩
    · rw [heq] at hres
      exact absurd hres (by simp)
    · rw [heq] at hres
      have hres2 : ((send_to_slack w
          ⟨scalarFromOutput outT, costs⟩).2.map
            (fun r => r.map (fun _ => CustomOutput.mk))) = some (.ok u) := hres
      rcases hs2 : (send_to_slack w ⟨scalarFromOutput outT, costs⟩).2 with _ | r
      · rw [hs2] at hres2
        exact absurd hres2 (by simp)
      · rw [hs2] at hres2
        rcases r with e | v
        · simp [Except.map] at hres2
        · rw [heq]
          have hc1 := send_to_slack_ok_slackCount w
            ⟨scalarFromOutput outT, costs⟩ v hs2
          simp only [slackCount_append]
          rw [hc1, slackCount_of_all_cw]
          intro c hc
          simp only [List.mem_cons] at hc
          rcases hc with h | h | h
          · subst h; rfl
          · subst h; rfl
          · exact getCosts_all_cw w 1 _ c h
  · rcases my_handler_split w with ⟨mets, e, heq, hcw⟩ |
        ⟨outT, outL, costs, _, _, _, heq⟩
    · rw [heq]
      rw [slackCount_of_all_cw mets hcw]
      exact Nat.zero_le 1
    · rw [heq]
      simp only [slackCount_append]
      rw [slackCount_of_all_cw]
      · simpa using send_to_slack_slackCount_le_one w
          ⟨scalarFromOutput outT, costs⟩
      · intro c hc
        simp only [List.mem_cons] at hc
        rcases hc with h | h | h
        · subst h; rfl
        · subst h; rfl
        · exact getCosts_all_cw w 1 _ c h
  · intro p hp
    rcases my_handler_split w with ⟨mets, e, heq, hcw⟩ |
        ⟨outT, outL, costs, hT, hL, hC, heq⟩
    · rw [heq] at hp
      have hp2 : p ∈ deliveredPayloads mets := hp
      rw [deliveredPayloads_of_all_cw mets hcw] at hp2
      exact absurd hp2 (by simp)
    · rw [heq] at hp
      have hp2 : p ∈ deliveredPayloads
          ((totalCall w :: listCall ::
            (getCosts w 1 (servicesFromOutput outL)).1) ++
           (send_to_slack w ⟨scalarFromOutput outT, costs⟩).1) := hp
      rw [deliveredPayloads_append] at hp2
      rw [deliveredPayloads_of_all_cw] at hp2
      · simp only [List.nil_append] at hp2
        refine ⟨outT, outL, costs, hT, hL, hC,
          (getCosts_ok w 1 _ costs hC).1, ?_⟩
        rcases send_to_slack_cases w ⟨scalarFromOutput outT, costs⟩ with
            ⟨_, hs⟩ | ⟨s, _, _, hs⟩ |
            ⟨s, reg, _, _, ⟨e, _, hs⟩ | hs | ⟨url, r, _, hs⟩⟩ <;> rw [hs] at hp2
        · exact absurd (show p ∈ deliveredPayloads [] from hp2)
            (by simp [deliveredPayloads])
        · exact absurd (show p ∈ deliveredPayloads [] from hp2)
            (by simp [deliveredPayloads])
        · have h3 : p ∈ deliveredPayloads
              [Call.ssm reg webhookParamRequest] := hp2
          exact absurd h3 (by simp [deliveredPayloads])
        · have h3 : p ∈ deliveredPayloads
              [Call.ssm reg webhookParamRequest] := hp2
          exact absurd h3 (by simp [deliveredPayloads])
        · have h3 : p ∈ deliveredPayloads
              [Call.ssm reg webhookParamRequest, Call.slack url
                (buildPayload ⟨scalarFromOutput outT, costs⟩)] := hp2
          simp only [deliveredPayloads, List.filterMap_cons,
            List.filterMap_nil, List.mem_singleton] at h3
          exact h3
      · intro c hc
        simp only [List.mem_cons] at hc
        rcases hc with h | h | h
        · subst h; rfl
        · subst h; rfl
        · exact getCosts_all_cw w 1 _ c h

/-- C3 witness: in world `WtotalErr` the total-cost query fails; the
invocation surfaces that error and the transport is never invoked. -/
theorem C3_witness :
    (my_handler WtotalErr).2 = some (.error "metrics backend down") ∧
    slackCount (my_handler WtotalErr).1 = 0 :=
  (C3_amended WtotalErr).1 "metrics backend down" rfl

/-- C4: for a successful metrics response with exactly one datapoint
carrying a present maximum `v`, the scalar-statistic fetch (both the
total-cost fetch and the per-service fetch) returns exactly `v`; for a
response with zero datapoints, or a single datapoint with absent
maximum, it returns 0. -/
theorem C4_scalar (w : World) (tick : ℕ) (svc : String) (v : ℚ) :
    (w.cw.getMetricStatistics (totalCostInput (w.clock tick)) =
        .ok { datapoints := some [{ maximum := some v }] } →
      (get_total_cost w tick).2 = .ok v) ∧
    (w.cw.getMetricStatistics (totalCostInput (w.clock tick)) =
        .ok { datapoints := some [] } →
      (get_total_cost w tick).2 = .ok 0) ∧
    (w.cw.getMetricStatistics (totalCostInput (w.clock tick)) =
        .ok { datapoints := some [{ maximum := none }] } →
      (get_total_cost w tick).2 = .ok 0) ∧
    (w.cw.getMetricStatistics (costInput (w.clock tick) svc) =
        .ok { datapoints := some [{ maximum := some v }] } →
      (get_cost w tick svc).2 = .ok { name := svc, cost := v }) ∧
    (w.cw.getMetricStatistics (costInput (w.clock tick) svc) =
        .ok { datapoints := some [] } →
      (get_cost w tick svc).2 = .ok { name := svc, cost := 0 }) ∧
    (w.cw.getMetricStatistics (costInput (w.clock tick) svc) =
        .ok { datapoints := some [{ maximum := none }] } →
      (get_cost w tick svc).2 = .ok { name := svc, cost := 0 }) := by
  refine ⟨?_, ?_, ?_, ?_, ?_, ?_⟩ <;> intro h <;>
    simp [get_total_cost, get_cost, scalarFromOutput, h]

/-- C4 witness: in scenario A's world the total-cost response carries the
single datapoint 12.34 and the fetch returns exactly it. -/
theorem C4_witness : (get_total_cost WA 0).2 = .ok q1234 :=
  (C4_scalar WA 0 "AmazonEC2" q1234).1 (by decide)

theorem dimensionServiceNames_eq (ds : List Dimension) :
    ds.filterMap
      (fun d => if d.name = "ServiceName" then some d.value else none) =
    dimensionServiceNames ds := by
  induction ds with
  | nil => rfl
  | cons d rest ih =>
    simp only [List.filterMap_cons, dimensionServiceNames]
    by_cases h : d.name = "ServiceName" <;> simp [h, ih]

theorem servicesFromOutput_eq_spec (o : ListMetricsOutput) :
    servicesFromOutput o = serviceNameValuesSpec (o.metrics.getD []) := by
  rw [servicesFromOutput]
  induction o.metrics.getD [] with
  | nil => rfl
  | cons m rest ih =>
    simp only [List.flatMap_cons, List.filterMap_append, serviceNameValuesSpec, ih]
    rw [dimensionServiceNames_eq]

/-- C5: for every successful list response, the service-name listing
returns exactly the `ServiceName` dimension values in the order they
appear in the response, with no deduplication and no sorting (the
spec-side `serviceNameValuesSpec` is a plain in-order pass-through). -/
theorem C5_passthrough (w : World) (out : ListMetricsOutput)
    (h : w.cw.listMetrics listServicesInput = .ok out) :
    (get_services_in_billing_namespace w).2 =
      .ok (serviceNameValuesSpec (out.metrics.getD [])) := by
  simp [get_services_in_billing_namespace, h, servicesFromOutput_eq_spec]

/-- C5 witness: the duplicate-bearing unsorted response of `Wdup` is
passed through verbatim — the duplicate survives and the order is kept. -/
theorem C5_witness :
    (get_services_in_billing_namespace Wdup).2 =
      .ok ["AmazonS3", "AmazonEC2", "AmazonS3"] :=
  (C5_passthrough Wdup
    { metrics := some [
        { dimensions := some [{ name := "ServiceName", value := "AmazonS3" },
                              { name := "Currency", value := "USD" }] },
        { dimensions := some [{ name := "ServiceName", value := "AmazonEC2" }] },
        { dimensions := some [{ name := "ServiceName", value := "AmazonS3" }] }] }
    rfl).trans (by decide)

/-- C6: for every successful aggregation over the listed service names,
the metrics requests issued are exactly one total request, one list
request, and one per-service request per name in listed order; the total
request carries dimensions `[Currency=USD]` and each per-service request
`[Currency=USD, ServiceName=name]`; and the aggregated services list has
one entry per listed name, named identically and in the same order. -/
theorem C6_queries (w : World) (outT : GetMetricStatisticsOutput)
    (outL : ListMetricsOutput) (costs : List ServiceBilling)
    (htot : w.cw.getMetricStatistics (totalCostInput (w.clock 0)) = .ok outT)
    (hlist : w.cw.listMetrics listServicesInput = .ok outL)
    (hcosts : (getCosts w 1 (servicesFromOutput outL)).2 = .ok costs) :
    (my_handler w).1.filter isCw =
      totalCall w :: listCall :: costCallsFrom w 1 (servicesFromOutput outL) ∧
    (costCallsFrom w 1 (servicesFromOutput outL)).length =
      (servicesFromOutput outL).length ∧
    (∀ t n, (costInput t n).dimensions =
      some [{ name := "Currency", value := "USD" },
            { name := "ServiceName", value := n }]) ∧
    (∀ t, (totalCostInput t).dimensions =
      some [{ name := "Currency", value := "USD" }]) ∧
    costs.length = (servicesFromOutput outL).length ∧
    costs.map ServiceBilling.name = servicesFromOutput outL := by
  have heq := my_handler_eq_of_ok w outT outL costs htot hlist hcosts
  have hok := getCosts_ok w 1 (servicesFromOutput outL) costs hcosts
  refine ⟨?_, costCallsFrom_length w 1 _, fun t n => rfl, fun t => rfl, ?_, hok.1⟩
  · rw [heq]
    show ((totalCall w :: listCall ::
        (getCosts w 1 (servicesFromOutput outL)).1) ++
        (send_to_slack w ⟨scalarFromOutput outT, costs⟩).1).filter isCw =
      totalCall w :: listCall :: costCallsFrom w 1 (servicesFromOutput outL)
    rw [List.filter_append, send_to_slack_filter_cw, List.append_nil]
    rw [hok.2]
    rw [List.filter_cons_of_pos rfl, List.filter_cons_of_pos rfl]
    rw [List.filter_eq_self.mpr]
    intro a ha
    exact costCallsFrom_all_cw w 1 _ a ha
  · rw [← hok.1]
    simp

/-- C6 witness: in scenario A the aggregated rows are named exactly as
the listed services, in order. -/
theorem C6_witness :
    List.map ServiceBilling.name billA.services =
      servicesFromOutput scenarioListOutput :=
  (C6_queries WA { datapoints := some [{ maximum := some q1234 }] }
    scenarioListOutput billA.services (by decide) rfl (by decide)).2.2.2.2.2

/-- C7 counterexample: in the scenario-A world (total 12.34, services
`AmazonEC2` at 5.00 and `AWSLambda` at 7.34) no delivered payload carries
the claimed rows `("AmazonEC2", "$5.00")`, `("AWSLambda", "$7.34")`:
Rust's `format!` renders `5.0` as `5`, so the first row reads `$5`. -/
theorem C7_counterexample :
    deliveredPayloads (my_handler WA).1 = [buildPayload billA] ∧
    ¬ ∃ p ∈ deliveredPayloads (my_handler WA).1,
        p.attachments.map
            (fun a => a.fields.map (fun f => (f.title, f.value))) =
          [[("AmazonEC2", "$5.00"), ("AWSLambda", "$7.34")]] :=
  ⟨by decide, by decide⟩

/-- C7 (amended): in scenario A exactly one payload is delivered; its
text contains `$12.34`, and its single attachment carries exactly the
rows `("AmazonEC2", "$5")` and `("AWSLambda", "$7.34")`, in that
order. -/
theorem C7_amended :
    deliveredPayloads (my_handler WA).1 = [buildPayload billA] ∧
    (buildPayload billA).text = "今月の請求額は $12.34 です" ∧
    (∃ pre post, (buildPayload billA).text = pre ++ "$12.34" ++ post) ∧
    (buildPayload billA).attachments.map
        (fun a => a.fields.map (fun f => (f.title, f.value))) =
      [[("AmazonEC2", "$5"), ("AWSLambda", "$7.34")]] :=
  ⟨by decide, by decide, ⟨"今月の請求額は ", " です", by decide⟩, by decide⟩

/-- C8 counterexample: the claim says one `TimeWindow` is constructed
per invocation and shared by every metrics query.  In world `Wmoving`
the clock advances between reads, and the invocation's queries carry two
different windows (the total query ends at time 0, the per-service query
at time 1): no single start/end pair covers all queries. -/
theorem C8_counterexample :
    ¬ ∃ st en : ℤ, ∀ r input,
        Call.cw r (CWQuery.stats input) ∈ (my_handler Wmoving).1 →
        input.startTime = st ∧ input.endTime = en := by
  rintro ⟨st, en, h⟩
  have h1 := h cloudWatchRegion (totalCostInput 0) (by decide)
  have h2 := h cloudWatchRegion (costInput 1 "AmazonEC2") (by decide)
  have h3 : (0 : ℤ) = en := h1.2
  have h4 : (1 : ℤ) = en := h2.2
  exact absurd (h3.trans h4.symm) (by decide)

/-- C8 (amended): each metrics query constructs its own fresh window at
its own clock reading: every `get_metric_statistics` request of any
invocation has period 86400 seconds equal to its window length, its end
strictly after its start, and its end equal to some reading of the
invocation's clock ("now" at that query). -/
theorem C8_amended (w : World) (r : String)
    (input : GetMetricStatisticsInput)
    (h : Call.cw r (CWQuery.stats input) ∈ (my_handler w).1) :
    input.period = daySeconds ∧
    input.endTime - input.startTime = daySeconds ∧
    input.startTime < input.endTime ∧
    ∃ k, input.endTime = w.clock k := by
  obtain ⟨-, hin⟩ := my_handler_stats_mem w r input h
  have hpos : (0 : ℤ) < daySeconds := by decide
  rcases hin with hin | ⟨k, svc, hin⟩
  · subst hin
    refine ⟨rfl, ?_, ?_, ⟨0, rfl⟩⟩
    · show w.clock 0 - (w.clock 0 - daySeconds) = daySeconds
      ring
    · show w.clock 0 - daySeconds < w.clock 0
      omega
  · subst hin
    refine ⟨rfl, ?_, ?_, ⟨k, rfl⟩⟩
    · show w.clock k - (w.clock k - daySeconds) = daySeconds
      ring
    · show w.clock k - daySeconds < w.clock k
      omega

/-- C8 witness: the per-service query of `Wmoving` (issued at clock
reading 1) has the amended window properties. -/
theorem C8_witness :
    (costInput 1 "AmazonEC2").period = daySeconds ∧
    (costInput 1 "AmazonEC2").endTime -
      (costInput 1 "AmazonEC2").startTime = daySeconds ∧
    (costInput 1 "AmazonEC2").startTime < (costInput 1 "AmazonEC2").endTime ∧
    ∃ k, (costInput 1 "AmazonEC2").endTime = Wmoving.clock k :=
  C8_amended Wmoving cloudWatchRegion (costInput 1 "AmazonEC2") (by decide)

/-- C9: for a successful metrics response with two or more datapoints,
the scalar-statistic fetch returns the maximum of the first datapoint in
the sequence (0 if absent), ignoring all later datapoints. -/
theorem C9_first_datapoint (w : World) (tick : ℕ) (svc : String)
    (d0 d1 : Datapoint) (rest : List Datapoint) :
    (w.cw.getMetricStatistics (totalCostInput (w.clock tick)) =
        .ok { datapoints := some (d0 :: d1 :: rest) } →
      (get_total_cost w tick).2 = .ok (d0.maximum.getD 0)) ∧
    (w.cw.getMetricStatistics (costInput (w.clock tick) svc) =
        .ok { datapoints := some (d0 :: d1 :: rest) } →
      (get_cost w tick svc).2 =
        .ok { name := svc, cost := d0.maximum.getD 0 }) := by
  constructor <;> intro h <;>
    simp [get_total_cost, get_cost, scalarFromOutput, h]

/-- C9 witness: in world `W9` the response carries the datapoints 5 and
12.34 in that order, and the fetch returns 5 — the first datapoint, not
the maximum over all datapoints. -/
theorem C9_witness : (get_total_cost W9 0).2 = .ok q5 :=
  (C9_first_datapoint W9 0 "AmazonEC2" { maximum := some q5 }
    { maximum := some q1234 } []).1 rfl

theorem my_handler_cw_region (w : World) (r : String) (q : CWQuery)
    (h : Call.cw r q ∈ (my_handler w).1) : r = cloudWatchRegion := by
  rcases my_handler_trace_cases w with h1 | h1 | ⟨outL, _, h1 | ⟨b, h1⟩⟩ <;>
    rw [h1] at h
  · simp only [List.mem_singleton, totalCall, Call.cw.injEq] at h
    exact h.1
  · simp only [List.mem_cons, List.not_mem_nil, or_false, totalCall, listCall,
      Call.cw.injEq] at h
    rcases h with h | h <;> exact h.1
  · simp only [List.mem_cons] at h
    rcases h with h | h | h
    · simp only [totalCall, Call.cw.injEq] at h
      exact h.1
    · simp only [listCall, Call.cw.injEq] at h
      exact h.1
    · obtain ⟨k, svc, _, heq⟩ := getCosts_mem w 1 _ _ h
      simp only [Call.cw.injEq] at heq
      exact heq.1
  · simp only [List.mem_cons, List.mem_append] at h
    rcases h with h | h | h | h
    · simp only [totalCall, Call.cw.injEq] at h
      exact h.1
    · simp only [listCall, Call.cw.injEq] at h
      exact h.1
    · obtain ⟨k, svc, _, heq⟩ := getCosts_mem w 1 _ _ h
      simp only [Call.cw.injEq] at heq
      exact heq.1
    · have := send_to_slack_no_cw w b _ h
      simp [isCw] at this

/-- C10: every CloudWatch request of every invocation is issued against
the fixed region `us-east-1`, independent of the environment, while
every secret-store request is issued against exactly the region named by
the `AWS_REGION` environment value (and asks for the fixed webhook
parameter): only the secret-store region varies with the environment. -/
theorem C10_regions (w : World) :
    cloudWatchRegion = "us-east-1" ∧
    (∀ r q, Call.cw r q ∈ (my_handler w).1 → r = cloudWatchRegion) ∧
    (∀ r req, Call.ssm r req ∈ (my_handler w).1 →
        w.env.awsRegion = some r ∧ req = webhookParamRequest) :=
  ⟨rfl, fun r q h => my_handler_cw_region w r q h,
   fun r req h => my_handler_ssm_mem w r req h⟩

/-- C10 witness: in `Wregion` (running with `AWS_REGION=ap-northeast-1`)
the secret-store call observed in the trace is directed at
`ap-northeast-1`, the region named by the environment. -/
theorem C10_witness :
    Wregion.env.awsRegion = some "ap-northeast-1" ∧
    webhookParamRequest = webhookParamRequest :=
  (C10_regions Wregion).2.2 "ap-northeast-1" webhookParamRequest (by decide)

end AwsBilling
